import Mathlib

/-!
Verification of the retry / mailbox-polling core of the AWS-Learning test
repository (`src/commands/Common.ts`, `MailtrapApiClient`).

The TypeScript code is shallowly embedded as follows.

* A single attempt of the retried asynchronous action either resolves with a
  value of type `α` or rejects with an error of type `ε` (`Attempt`).
* The action is a JS closure: it may read and mutate captured state.  We embed
  it as a state-passing function `Nat → σ → Attempt α ε × σ`, indexed by the
  1-based attempt number.
* JS truthiness of resolved values and of caught errors is abstracted by
  boolean predicates `truthy : α → Bool` and `errTruthy : ε → Bool`; error
  string interpolation (template literal `${cbError}`) by `errStr : ε → String`.
* `retryUntil` returns a `RetryTrace`: the final outcome (resolved value,
  thrown exhaustion error, or the `undefined` fall-through of the degenerate
  loop), the final closure state, and the ordered list of observable events
  (each invocation of the action, each `wait(timeout)` sleep).
-/

/-- One attempt of the asynchronous callback: it resolves with a value or
rejects with an error (the promise outcome of `cbToPerform()`). -/
inductive Attempt (α ε : Type) where
  | resolve (v : α)
  | reject (e : ε)
deriving DecidableEq, Repr

/-- Final outcome of a `retryUntil` call: a truthy resolved value, a thrown
`RetryUntil failed …` error carrying its message, or the `undefined` result of
falling through a loop that never ran (`timesToRepeat <= 0`). -/
inductive RetryOutcome (α : Type) where
  | resolved (v : α)
  | exhausted (msg : String)
  | undefinedResult
deriving DecidableEq, Repr

/-- `true` iff the outcome is the thrown exhaustion error. -/
def RetryOutcome.isExhausted {α : Type} : RetryOutcome α → Bool
  | .exhausted _ => true
  | _ => false

/-- `true` iff the outcome is a resolved (truthy) value. -/
def RetryOutcome.isResolved {α : Type} : RetryOutcome α → Bool
  | .resolved _ => true
  | _ => false

/-- Observable events of a `retryUntil` run: invoking the callback for attempt
`i`, or sleeping `ms` milliseconds in `wait`. -/
inductive REvent where
  | call (i : Nat)
  | sleep (ms : Nat)
deriving DecidableEq, Repr

/-- `true` iff the event is an invocation of the callback. -/
def REvent.isCall : REvent → Bool
  | .call _ => true
  | .sleep _ => false

/-- Result of a `retryUntil` run: outcome, final closure state, and the
ordered event list. -/
structure RetryTrace (α σ : Type) where
  outcome : RetryOutcome α
  state : σ
  events : List REvent
deriving DecidableEq, Repr

/-- Number of invocations of the callback during the run. -/
def RetryTrace.invocations {α σ : Type} (t : RetryTrace α σ) : Nat :=
  (t.events.filter REvent.isCall).length

/-- Number of `wait(timeout)` sleeps performed during the run. -/
def RetryTrace.waits {α σ : Type} (t : RetryTrace α σ) : Nat :=
  (t.events.filter (fun e => ! e.isCall)).length

/-- Message of the error thrown on exhaustion:
`` `RetryUntil failed ${withErrorMsg}Condition wasn't successful:\n${cbToPerform.toString()}` ``
where `withErrorMsg` is `` `with error: ${cbError}\n` `` if `cbError` is
truthy and `''` otherwise (`cbError` starts as `null`, hence falsy when no
rejection was caught on the final attempt). -/
def exhaustMsg {ε : Type} (errTruthy : ε → Bool) (errStr : ε → String)
    (cbError : Option ε) (descr : String) : String :=
  let withErrorMsg :=
    match cbError with
    | some e => if errTruthy e then "with error: " ++ errStr e ++ "\n" else ""
    | none => ""
  "RetryUntil failed " ++ withErrorMsg ++ "Condition wasn't successful:\n" ++ descr

/-- The loop body of `retryUntil`, by recursion on the number of remaining
iterations (`rem` = `timesToRepeat - i + 1`); `i` is the 1-based attempt
counter of the `for` loop, `s` the current closure state.

Each iteration mirrors the source: `cbError` starts as `null`; the callback
is awaited with `.catch` turning a rejection into the falsy result `false`
while capturing the error; a truthy result returns immediately; otherwise
`if (timeout) await wait(timeout)` sleeps; and when `i === timesToRepeat`
the exhaustion error is thrown. -/
def retryUntilAux {α ε σ : Type} (truthy : α → Bool) (errTruthy : ε → Bool)
    (errStr : ε → String) (action : Nat → σ → Attempt α ε × σ) (descr : String)
    (timeout : Nat) : Nat → Nat → σ → RetryTrace α σ
  | 0, _, s => ⟨.undefinedResult, s, []⟩
  | rem + 1, i, s =>
    let step := action i s
    let s' := step.2
    match step.1 with
    | .resolve v =>
      if truthy v then ⟨.resolved v, s', [.call i]⟩
      else
        let tail : List REvent := if timeout ≠ 0 then [.sleep timeout] else []
        if rem = 0 then
          ⟨.exhausted (exhaustMsg errTruthy errStr none descr), s', .call i :: tail⟩
        else
          let t := retryUntilAux truthy errTruthy errStr action descr timeout rem (i + 1) s'
          ⟨t.outcome, t.state, .call i :: (tail ++ t.events)⟩
    | .reject e =>
      let tail : List REvent := if timeout ≠ 0 then [.sleep timeout] else []
      if rem = 0 then
        ⟨.exhausted (exhaustMsg errTruthy errStr (some e) descr), s', .call i :: tail⟩
      else
        let t := retryUntilAux truthy errTruthy errStr action descr timeout rem (i + 1) s'
        ⟨t.outcome, t.state, .call i :: (tail ++ t.events)⟩

/-- `retryUntil(cbToPerform, { timesToRepeat, timeout })`.  The `for` loop
`for (let i = 1; i <= timesToRepeat; i += 1)` runs `max timesToRepeat 0`
iterations, so the iteration budget is `timesToRepeat.toNat`. -/
def retryUntil {α ε σ : Type} (truthy : α → Bool) (errTruthy : ε → Bool)
    (errStr : ε → String) (action : Nat → σ → Attempt α ε × σ) (descr : String)
    (timesToRepeat : Int) (timeout : Nat) (s : σ) : RetryTrace α σ :=
  retryUntilAux truthy errTruthy errStr action descr timeout timesToRepeat.toNat 1 s

/-- An attempt outcome is unsuccessful for the loop when it either resolves to
a falsy value or rejects (rejections are caught and replaced by `false`). -/
def attemptFalsy {α ε : Type} (truthy : α → Bool) : Attempt α ε → Prop
  | .resolve v => truthy v = false
  | .reject _ => True

instance {α ε : Type} (truthy : α → Bool) (a : Attempt α ε) :
    Decidable (attemptFalsy truthy a) := by
  cases a with
  | resolve v => simp only [attemptFalsy]; infer_instance
  | reject e => exact .isTrue trivial

/-- The error captured into `cbError` by the `.catch` handler of one attempt:
`some e` if the promise rejected, `none` (the initial `null`) otherwise. -/
def attemptError {α ε : Type} : Attempt α ε → Option ε
  | .resolve _ => none
  | .reject e => some e

/-- Closure state at the start of attempt `i + n`, starting from state `s`
at the start of attempt `i` (each attempt threads the closure's mutations). -/
def iterState {α ε σ : Type} (action : Nat → σ → Attempt α ε × σ) :
    Nat → Nat → σ → σ
  | 0, _, s => s
  | n + 1, i, s => iterState action n (i + 1) (action i s).2

/-- Event list of a fully exhausted run of `rem + 1` attempts starting at
attempt `i`: each attempt is a call, followed by a sleep when `timeout ≠ 0`
(including after the final attempt, since the `wait` precedes the throw). -/
def exhaustEvents (timeout : Nat) : Nat → Nat → List REvent
  | 0, i => .call i :: (if timeout ≠ 0 then [.sleep timeout] else [])
  | rem + 1, i =>
    .call i :: ((if timeout ≠ 0 then [.sleep timeout] else []) ++
      exhaustEvents timeout rem (i + 1))

/-- Unfolding lemma: an attempt that resolves to a truthy value returns it
immediately — no sleep, no further attempt. -/
theorem retryUntilAux_resolve_truthy {α ε σ : Type} (truthy : α → Bool)
    (errTruthy : ε → Bool) (errStr : ε → String)
    (action : Nat → σ → Attempt α ε × σ) (descr : String) (timeout : Nat)
    (rem i : Nat) (s s' : σ) (v : α)
    (hc : action i s = (Attempt.resolve v, s')) (hv : truthy v = true) :
    retryUntilAux truthy errTruthy errStr action descr timeout (rem + 1) i s =
      ⟨RetryOutcome.resolved v, s', [REvent.call i]⟩ := by
  unfold retryUntilAux
  rw [hc]
  simp [hv]

/-- Unfolding lemma: an unsuccessful final attempt (when `i === timesToRepeat`)
sleeps when `timeout ≠ 0` and then throws the exhaustion error built from this
attempt's `cbError`. -/
theorem retryUntilAux_last_falsy {α ε σ : Type} (truthy : α → Bool)
    (errTruthy : ε → Bool) (errStr : ε → String)
    (action : Nat → σ → Attempt α ε × σ) (descr : String) (timeout : Nat)
    (i : Nat) (s s' : σ) (a : Attempt α ε)
    (hc : action i s = (a, s')) (hfal : attemptFalsy truthy a) :
    retryUntilAux truthy errTruthy errStr action descr timeout 1 i s =
      ⟨RetryOutcome.exhausted (exhaustMsg errTruthy errStr (attemptError a) descr),
        s', REvent.call i :: (if timeout ≠ 0 then [REvent.sleep timeout] else [])⟩ := by
  unfold retryUntilAux
  rw [hc]
  cases a with
  | resolve v =>
    have hv : truthy v = false := hfal
    simp [hv, attemptError]
  | reject e => simp [attemptError]

/-- Unfolding lemma: an unsuccessful non-final attempt sleeps when
`timeout ≠ 0` and continues with the next attempt. -/
theorem retryUntilAux_step_falsy {α ε σ : Type} (truthy : α → Bool)
    (errTruthy : ε → Bool) (errStr : ε → String)
    (action : Nat → σ → Attempt α ε × σ) (descr : String) (timeout : Nat)
    (rem i : Nat) (s s' : σ) (a : Attempt α ε)
    (hrem : rem ≠ 0) (hc : action i s = (a, s')) (hfal : attemptFalsy truthy a) :
    retryUntilAux truthy errTruthy errStr action descr timeout (rem + 1) i s =
      ⟨(retryUntilAux truthy errTruthy errStr action descr timeout rem (i + 1) s').outcome,
        (retryUntilAux truthy errTruthy errStr action descr timeout rem (i + 1) s').state,
        REvent.call i :: ((if timeout ≠ 0 then [REvent.sleep timeout] else []) ++
          (retryUntilAux truthy errTruthy errStr action descr timeout rem (i + 1) s').events)⟩ := by
  conv_lhs => unfold retryUntilAux
  rw [hc]
  cases a with
  | resolve v =>
    have hv : truthy v = false := hfal
    simp [hv, hrem]
  | reject e => simp [hrem]

/-- An action that never yields a truthy result drives the loop through all
`rem + 1` remaining attempts: the run throws the exhaustion error built from
the error (if any) caught on the *final* attempt (the `cbError` of earlier
attempts is discarded, being re-initialised to `null` each iteration), ends in
the final attempt's closure state, and produces the full call/sleep event
list. -/
theorem retryUntilAux_exhaust_run {α ε σ : Type} (truthy : α → Bool)
    (errTruthy : ε → Bool) (errStr : ε → String)
    (action : Nat → σ → Attempt α ε × σ) (descr : String) (timeout : Nat)
    (hfal : ∀ j s₁, attemptFalsy truthy (action j s₁).1) :
    ∀ (rem i : Nat) (s : σ),
      retryUntilAux truthy errTruthy errStr action descr timeout (rem + 1) i s =
        ⟨RetryOutcome.exhausted (exhaustMsg errTruthy errStr
            (attemptError (action (i + rem) (iterState action rem i s)).1) descr),
          (action (i + rem) (iterState action rem i s)).2,
          exhaustEvents timeout rem i⟩ := by
  intro rem
  induction rem with
  | zero =>
    intro i s
    rcases hstep : action i s with ⟨a, s2⟩
    have h : attemptFalsy truthy a := by
      have := hfal i s
      rw [hstep] at this
      exact this
    rw [retryUntilAux_last_falsy truthy errTruthy errStr action descr timeout i s s2 a hstep h]
    simp [exhaustEvents, iterState, hstep]
  | succ n ih =>
    intro i s
    rcases hstep : action i s with ⟨a, s2⟩
    have h : attemptFalsy truthy a := by
      have := hfal i s
      rw [hstep] at this
      exact this
    rw [retryUntilAux_step_falsy truthy errTruthy errStr action descr timeout (n + 1) i s s2 a
      (by omega) hstep h]
    rw [ih (i + 1) s2]
    have harith : i + 1 + n = i + (n + 1) := by omega
    simp [exhaustEvents, iterState, hstep, harith]

/-- Call count of an exhausted run: one per attempt. -/
theorem exhaustEvents_calls (timeout : Nat) :
    ∀ (rem i : Nat),
      ((exhaustEvents timeout rem i).filter REvent.isCall).length = rem + 1 := by
  intro rem
  induction rem with
  | zero =>
    intro i
    by_cases ht : timeout ≠ 0 <;> simp [exhaustEvents, ht, REvent.isCall]
  | succ n ih =>
    intro i
    by_cases ht : timeout ≠ 0 <;>
      simp [exhaustEvents, ht, REvent.isCall, List.filter_append, ih (i + 1)]

/-- Sleep count of an exhausted run: one per attempt when `timeout ≠ 0`
(including a trailing sleep after the final attempt), none otherwise. -/
theorem exhaustEvents_sleeps (timeout : Nat) :
    ∀ (rem i : Nat),
      ((exhaustEvents timeout rem i).filter (fun e => ! e.isCall)).length =
        if timeout ≠ 0 then rem + 1 else 0 := by
  intro rem
  induction rem with
  | zero =>
    intro i
    by_cases ht : timeout ≠ 0 <;> simp [exhaustEvents, ht, REvent.isCall]
  | succ n ih =>
    intro i
    have := ih (i + 1)
    by_cases ht : timeout ≠ 0 <;>
      simp_all [exhaustEvents, ht, REvent.isCall, List.filter_append]

/-- Final event of an exhausted run: the trailing sleep when `timeout ≠ 0`
(the `wait` precedes the throw), otherwise the final call. -/
theorem exhaustEvents_getLast (timeout : Nat) :
    ∀ (rem i : Nat),
      (exhaustEvents timeout rem i).getLast? =
        some (if timeout ≠ 0 then REvent.sleep timeout else REvent.call (i + rem)) := by
  intro rem
  induction rem with
  | zero =>
    intro i
    by_cases ht : timeout ≠ 0 <;> simp [exhaustEvents, ht]
  | succ n ih =>
    intro i
    have h := ih (i + 1)
    have harith : i + 1 + n = i + (n + 1) := by omega
    by_cases ht : timeout ≠ 0 <;>
      simp_all [exhaustEvents, ht, List.getLast?_cons, harith]

/-- A run whose attempts `i, …, i + d - 1` are unsuccessful (for every closure
state) and whose attempt `i + d` resolves to the truthy value `v` terminates
at attempt `i + d`: it resolves with `v`, makes exactly `d + 1` invocations,
and its final event is the successful call (nothing runs after a success). -/
theorem retryUntilAux_success_run {α ε σ : Type} (truthy : α → Bool)
    (errTruthy : ε → Bool) (errStr : ε → String)
    (action : Nat → σ → Attempt α ε × σ) (descr : String) (timeout : Nat)
    (v : α) (hv : truthy v = true) :
    ∀ (d rem i : Nat) (s : σ), d < rem →
      (∀ j s₁, i ≤ j → j < i + d → attemptFalsy truthy (action j s₁).1) →
      (∀ s₁, (action (i + d) s₁).1 = Attempt.resolve v) →
      (retryUntilAux truthy errTruthy errStr action descr timeout rem i s).outcome
          = RetryOutcome.resolved v ∧
      (retryUntilAux truthy errTruthy errStr action descr timeout rem i s).invocations
          = d + 1 ∧
      (retryUntilAux truthy errTruthy errStr action descr timeout rem i s).events.getLast?
          = some (REvent.call (i + d)) := by
  intro d
  induction d with
  | zero =>
    intro rem i s hd hearly hsucc
    obtain ⟨r, rfl⟩ : ∃ r, rem = r + 1 := ⟨rem - 1, by omega⟩
    rcases hstep : action i s with ⟨a, s2⟩
    have hc : a = Attempt.resolve v := by
      have h := hsucc s
      rw [Nat.add_zero, hstep] at h
      exact h
    subst hc
    rw [retryUntilAux_resolve_truthy truthy errTruthy errStr action descr timeout r i s s2 v
      hstep hv]
    refine ⟨rfl, ?_, ?_⟩
    · simp [RetryTrace.invocations, REvent.isCall]
    · simp
  | succ n ih =>
    intro rem i s hd hearly hsucc
    obtain ⟨r, rfl⟩ : ∃ r, rem = r + 1 := ⟨rem - 1, by omega⟩
    rcases hstep : action i s with ⟨a, s2⟩
    have hfa : attemptFalsy truthy a := by
      have h := hearly i s (Nat.le_refl i) (by omega)
      rw [hstep] at h
      exact h
    rw [retryUntilAux_step_falsy truthy errTruthy errStr action descr timeout r i s s2 a
      (by omega) hstep hfa]
    have harith : i + 1 + n = i + (n + 1) := by omega
    obtain ⟨ho, hinv, hlast⟩ := ih r (i + 1) s2 (by omega)
      (fun j s₁ hj1 hj2 => hearly j s₁ (by omega) (by omega))
      (fun s₁ => by rw [harith]; exact hsucc s₁)
    refine ⟨ho, ?_, ?_⟩
    · simp only [RetryTrace.invocations] at hinv ⊢
      by_cases ht : timeout = 0
      · subst ht
        simp [List.filter_append, REvent.isCall, hinv]
      · simp [List.filter_append, REvent.isCall, ht, hinv]
    · simp [List.getLast?_cons, hlast, harith]

/-- **C1.** For every `attemptLimit ≥ 1` and every action that resolves to a
truthy value on attempt `k ≤ attemptLimit` (and resolves falsy or rejects on
all earlier attempts), `retryUntil` resolves with that truthy value after
exactly `k` invocations of the action; the successful call is the last event
of the run, so the action is never invoked again after the first truthy
result. -/
theorem retryUntil_succeeds_after_k_attempts {α ε σ : Type} (truthy : α → Bool)
    (errTruthy : ε → Bool) (errStr : ε → String)
    (action : Nat → σ → Attempt α ε × σ) (descr : String)
    (attemptLimit : Int) (timeout : Nat) (s : σ) (k : Nat) (v : α)
    (hlim : 1 ≤ attemptLimit) (hk1 : 1 ≤ k) (hk : (k : Int) ≤ attemptLimit)
    (hearly : ∀ j s₁, 1 ≤ j → j < k → attemptFalsy truthy (action j s₁).1)
    (hsucc : ∀ s₁, (action k s₁).1 = Attempt.resolve v) (hv : truthy v = true) :
    (retryUntil truthy errTruthy errStr action descr attemptLimit timeout s).outcome
        = RetryOutcome.resolved v ∧
    (retryUntil truthy errTruthy errStr action descr attemptLimit timeout s).invocations
        = k ∧
    (retryUntil truthy errTruthy errStr action descr attemptLimit timeout s).events.getLast?
        = some (REvent.call k) := by
  have hk' : 1 + (k - 1) = k := by omega
  have h := retryUntilAux_success_run truthy errTruthy errStr action descr timeout v hv
    (k - 1) attemptLimit.toNat 1 s (by omega)
    (fun j s₁ hj1 hj2 => hearly j s₁ hj1 (by omega))
    (fun s₁ => by rw [hk']; exact hsucc s₁)
  rw [hk'] at h
  have hd : k - 1 + 1 = k := by omega
  rw [hd] at h
  simp only [retryUntil]
  exact h

/-- Witness for C1: with `attemptLimit = 3`, an action that rejects on
attempt 1, resolves falsy on attempt 2 and resolves `true` on attempt 3 makes
`retryUntil` resolve with `true` after exactly 3 invocations. -/
theorem retryUntil_succeeds_after_k_attempts_witness :
    (retryUntil (fun b : Bool => b) (fun _ : String => true) (fun e => e)
        (fun j _ => (if j = 1 then Attempt.reject "probe failed"
          else if j = 2 then Attempt.resolve false else Attempt.resolve true, ()))
        "async () => cb()" 3 0 ()).outcome = RetryOutcome.resolved true ∧
    (retryUntil (fun b : Bool => b) (fun _ : String => true) (fun e => e)
        (fun j _ => (if j = 1 then Attempt.reject "probe failed"
          else if j = 2 then Attempt.resolve false else Attempt.resolve true, ()))
        "async () => cb()" 3 0 ()).invocations = 3 ∧
    (retryUntil (fun b : Bool => b) (fun _ : String => true) (fun e => e)
        (fun j _ => (if j = 1 then Attempt.reject "probe failed"
          else if j = 2 then Attempt.resolve false else Attempt.resolve true, ()))
        "async () => cb()" 3 0 ()).events.getLast? = some (REvent.call 3) :=
  retryUntil_succeeds_after_k_attempts (fun b : Bool => b) (fun _ : String => true)
    (fun e => e)
    (fun j _ => (if j = 1 then Attempt.reject "probe failed"
      else if j = 2 then Attempt.resolve false else Attempt.resolve true, ()))
    "async () => cb()" 3 0 () 3 true (by decide) (by decide) (by decide)
    (fun j s₁ h1 h2 => by
      cases s₁
      have hj : j = 1 ∨ j = 2 := by omega
      rcases hj with rfl | rfl <;> decide)
    (fun s₁ => rfl) rfl

/-- **C2.** For every `attemptLimit ≥ 1` and every action that on every
attempt either resolves to a falsy value or rejects, `retryUntil` invokes the
action exactly `attemptLimit` times and then fails with the `RetryUntil
failed …` exhaustion error. -/
theorem retryUntil_exhausts_all_attempts {α ε σ : Type} (truthy : α → Bool)
    (errTruthy : ε → Bool) (errStr : ε → String)
    (action : Nat → σ → Attempt α ε × σ) (descr : String)
    (attemptLimit : Int) (timeout : Nat) (s : σ) (hlim : 1 ≤ attemptLimit)
    (hfal : ∀ j s₁, attemptFalsy truthy (action j s₁).1) :
    (retryUntil truthy errTruthy errStr action descr attemptLimit timeout s).invocations
        = attemptLimit.toNat ∧
    (retryUntil truthy errTruthy errStr action descr attemptLimit timeout s).outcome.isExhausted
        = true := by
  obtain ⟨r, hr⟩ : ∃ r, attemptLimit.toNat = r + 1 := ⟨attemptLimit.toNat - 1, by omega⟩
  simp only [retryUntil, hr]
  rw [retryUntilAux_exhaust_run truthy errTruthy errStr action descr timeout hfal r 1 s]
  refine ⟨?_, rfl⟩
  simp only [RetryTrace.invocations]
  exact exhaustEvents_calls timeout r 1

/-- Witness for C2: an action that always rejects, with `attemptLimit = 3`,
is invoked exactly 3 times and the call ends in the exhaustion error. -/
theorem retryUntil_exhausts_all_attempts_witness :
    (retryUntil (fun b : Bool => b) (fun _ : String => true) (fun e => e)
        (fun _ _ => (Attempt.reject "boom", ())) "async () => cb()" 3 0 ()).invocations
        = (3 : Int).toNat ∧
    (retryUntil (fun b : Bool => b) (fun _ : String => true) (fun e => e)
        (fun _ _ => (Attempt.reject "boom", ())) "async () => cb()" 3 0 ()).outcome.isExhausted
        = true :=
  retryUntil_exhausts_all_attempts (fun b : Bool => b) (fun _ : String => true)
    (fun e => e) (fun _ _ => (Attempt.reject "boom", ())) "async () => cb()" 3 0 ()
    (by decide) (fun _ _ => trivial)

/-- `needle` is an initial segment of `hay` (character lists). -/
def leadsWith {β : Type} [DecidableEq β] : List β → List β → Bool
  | [], _ => true
  | _ :: _, [] => false
  | a :: as, b :: bs => a = b && leadsWith as bs

/-- `needle` occurs as a contiguous run somewhere in `hay` (character lists). -/
def occursIn {β : Type} [DecidableEq β] (needle : List β) : List β → Bool
  | [] => needle.isEmpty
  | b :: bs => leadsWith needle (b :: bs) || occursIn needle bs

/-- JS `hay.includes(needle)`: substring containment. -/
def strContains (hay needle : String) : Bool := occursIn needle.data hay.data

/-- JS `hay.startsWith(needle)`. -/
def strStarts (hay needle : String) : Bool := leadsWith needle.data hay.data

theorem leadsWith_append_self {β : Type} [DecidableEq β] :
    ∀ (xs ys : List β), leadsWith xs (xs ++ ys) = true := by
  intro xs
  induction xs with
  | nil => intro ys; rfl
  | cons a as ih => intro ys; simp [leadsWith, ih ys]

theorem occursIn_of_leadsWith {β : Type} [DecidableEq β] {n m : List β}
    (h : leadsWith n m = true) : occursIn n m = true := by
  cases m with
  | nil =>
    cases n with
    | nil => rfl
    | cons a as => simp [leadsWith] at h
  | cons b bs => simp [occursIn, h]

theorem occursIn_cons {β : Type} [DecidableEq β] {n bs : List β} (b : β)
    (h : occursIn n bs = true) : occursIn n (b :: bs) = true := by
  simp [occursIn, h]

theorem occursIn_append_left {β : Type} [DecidableEq β] {n m : List β}
    (xs : List β) (h : occursIn n m = true) : occursIn n (xs ++ m) = true := by
  induction xs with
  | nil => exact h
  | cons x xt ih => exact occursIn_cons x ih

/-- Any string whose character data splits as `pre ++ needle ++ post`
contains `needle`. -/
theorem strContains_of_parts (hay needle : String) (pre post : List Char)
    (h : hay.data = pre ++ (needle.data ++ post)) : strContains hay needle = true := by
  unfold strContains
  rw [h]
  exact occursIn_append_left pre
    (occursIn_of_leadsWith (leadsWith_append_self needle.data post))

/-- A string starting (at the list level) with `needle.data` satisfies
`strStarts`. -/
theorem strStarts_of_parts (hay needle : String) (post : List Char)
    (h : hay.data = needle.data ++ post) : strStarts hay needle = true := by
  unfold strStarts
  rw [h]
  exact leadsWith_append_self needle.data post

/-- The message built with a truthy caught error embeds the rendered error. -/
theorem exhaustMsg_contains_error {ε : Type} (errTruthy : ε → Bool)
    (errStr : ε → String) (e : ε) (descr : String) (he : errTruthy e = true) :
    strContains (exhaustMsg errTruthy errStr (some e) descr) (errStr e) = true := by
  apply strContains_of_parts _ _ ("RetryUntil failed ".data ++ "with error: ".data)
    ("\n".data ++ ("Condition wasn't successful:\n".data ++ descr.data))
  simp [exhaustMsg, he, List.append_assoc]

/-- The message built with no caught error has no error section. -/
theorem exhaustMsg_none {ε : Type} (errTruthy : ε → Bool) (errStr : ε → String)
    (descr : String) :
    exhaustMsg errTruthy errStr (none : Option ε) descr =
      "RetryUntil failed Condition wasn't successful:\n" ++ descr := rfl

/-- Every exhaustion message starts with `RetryUntil failed `. -/
theorem exhaustMsg_starts {ε : Type} (errTruthy : ε → Bool) (errStr : ε → String)
    (cbError : Option ε) (descr : String) :
    strStarts (exhaustMsg errTruthy errStr cbError descr) "RetryUntil failed " = true := by
  cases cbError with
  | none =>
    apply strStarts_of_parts _ _
      ("Condition wasn't successful:\n".data ++ descr.data)
    simp [exhaustMsg, List.append_assoc]
  | some e =>
    by_cases he : errTruthy e = true
    · apply strStarts_of_parts _ _
        ("with error: ".data ++ ((errStr e).data ++ ("\n".data ++
          ("Condition wasn't successful:\n".data ++ descr.data))))
      simp [exhaustMsg, he, List.append_assoc]
    · apply strStarts_of_parts _ _
        ("Condition wasn't successful:\n".data ++ descr.data)
      simp [exhaustMsg, he, List.append_assoc]

/-- Promise outcome of the final attempt (attempt number `attemptLimit`) of a
run that reaches it: the closure state entering that attempt is obtained by
threading the preceding `attemptLimit - 1` attempts from the initial state. -/
def finalAttemptOutcome {α ε σ : Type} (action : Nat → σ → Attempt α ε × σ)
    (attemptLimit : Int) (s : σ) : Attempt α ε :=
  (action attemptLimit.toNat (iterState action (attemptLimit.toNat - 1) 1 s)).1

/-- **C3 counterexample.** Two attempts, `timeout = 0`: attempt 1 rejects with
error `boom` (the most recently caught probe error of the run) and the final
attempt resolves falsy.  The exhaustion message is the plain one and does not
embed `boom`: `cbError` is declared inside the loop body, so the error caught
on an earlier attempt is discarded when the next iteration starts. -/
theorem retryUntil_drops_earlier_error_counterexample :
    (retryUntil (fun b : Bool => b) (fun _ : String => true) (fun e => e)
        (fun j _ => (if j = 1 then Attempt.reject "boom" else Attempt.resolve false, ()))
        "cb" 2 0 ()).outcome
      = RetryOutcome.exhausted "RetryUntil failed Condition wasn't successful:\ncb" ∧
    strContains "RetryUntil failed Condition wasn't successful:\ncb" "boom" = false := by
  constructor
  · rfl
  · decide

/-- **C3 amended.** On an exhausted run the error message embeds the error
caught on the *final* attempt only: if the final attempt rejected with a
(truthy) error `e`, the message is built from `some e` and contains the
rendered error as a substring; if the final attempt merely resolved falsy,
the message is the plain `RetryUntil failed Condition wasn't successful:…`
with no error section, regardless of rejections on earlier attempts. -/
theorem retryUntil_message_embeds_final_error {α ε σ : Type} (truthy : α → Bool)
    (errTruthy : ε → Bool) (errStr : ε → String)
    (action : Nat → σ → Attempt α ε × σ) (descr : String)
    (attemptLimit : Int) (timeout : Nat) (s : σ) (hlim : 1 ≤ attemptLimit)
    (hfal : ∀ j s₁, attemptFalsy truthy (action j s₁).1) :
    (retryUntil truthy errTruthy errStr action descr attemptLimit timeout s).outcome
      = RetryOutcome.exhausted (exhaustMsg errTruthy errStr
          (attemptError (finalAttemptOutcome action attemptLimit s)) descr) ∧
    (∀ e, finalAttemptOutcome action attemptLimit s = Attempt.reject e →
      errTruthy e = true →
      strContains (exhaustMsg errTruthy errStr
          (attemptError (finalAttemptOutcome action attemptLimit s)) descr)
        (errStr e) = true) ∧
    (∀ v, finalAttemptOutcome action attemptLimit s = Attempt.resolve v →
      exhaustMsg errTruthy errStr
          (attemptError (finalAttemptOutcome action attemptLimit s)) descr
        = "RetryUntil failed Condition wasn't successful:\n" ++ descr) := by
  obtain ⟨r, hr⟩ : ∃ r, attemptLimit.toNat = r + 1 := ⟨attemptLimit.toNat - 1, by omega⟩
  have hfin : finalAttemptOutcome action attemptLimit s
      = (action (1 + r) (iterState action r 1 s)).1 := by
    simp [finalAttemptOutcome, hr, Nat.add_comm]
  refine ⟨?_, ?_, ?_⟩
  · simp only [retryUntil, hr]
    rw [retryUntilAux_exhaust_run truthy errTruthy errStr action descr timeout hfal r 1 s]
    rw [hfin]
  · intro e he het
    rw [he]
    simp only [attemptError]
    exact exhaustMsg_contains_error errTruthy errStr e descr het
  · intro v hv
    rw [hv]
    simp only [attemptError]
    exact exhaustMsg_none errTruthy errStr descr

/-- Witness for C3's amended claim: attempt 1 resolves falsy and the final
attempt (attempt 2) rejects with `late boom`; the message embeds the rendered
final error. -/
theorem retryUntil_message_embeds_final_error_witness :
    (retryUntil (fun b : Bool => b) (fun _ : String => true) (fun e => e)
        (fun j _ => (if j = 1 then Attempt.resolve false else Attempt.reject "late boom", ()))
        "cb" 2 0 ()).outcome
      = RetryOutcome.exhausted (exhaustMsg (fun _ : String => true) (fun e => e)
          (attemptError (finalAttemptOutcome
            (fun j (_ : Unit) => (if j = 1 then Attempt.resolve false
              else Attempt.reject "late boom", ())) 2 ())) "cb") ∧
    strContains (exhaustMsg (fun _ : String => true) (fun e => e)
        (attemptError (finalAttemptOutcome
          (fun j (_ : Unit) => (if j = 1 then Attempt.resolve false
            else Attempt.reject "late boom", ())) 2 ())) "cb") "late boom" = true := by
  have h := retryUntil_message_embeds_final_error (fun b : Bool => b)
    (fun _ : String => true) (fun e => e)
    (fun j (_ : Unit) => (if j = 1 then Attempt.resolve false
      else Attempt.reject "late boom", ()))
    "cb" 2 0 () (by decide)
    (fun j s₁ => by
      cases s₁
      by_cases hj : j = 1 <;> simp [hj, attemptFalsy])
  exact ⟨h.1, h.2.1 "late boom" (by decide) rfl⟩

/-- **C4 counterexample.** With `timesToRepeat = 0` (an `attemptLimit < 1`)
the `for` loop body never runs: the call resolves with `undefined`, performs
no wait and never invokes the action — no configuration error is raised and
nothing fails fast. -/
theorem retryUntil_nonpositive_limit_counterexample :
    (retryUntil (fun b : Bool => b) (fun _ : String => true) (fun e => e)
        (fun _ _ => (Attempt.resolve true, ())) "cb" 0 0 ())
      = ⟨RetryOutcome.undefinedResult, (), []⟩ ∧
    ((retryUntil (fun b : Bool => b) (fun _ : String => true) (fun e => e)
        (fun _ _ => (Attempt.resolve true, ())) "cb" 0 0 ()).outcome.isExhausted
      = false) := by
  exact ⟨rfl, rfl⟩

/-- **C4 amended.** For every call with `attemptLimit < 1` the action is
invoked zero times and `retryUntil` resolves with `undefined` (an empty run:
no events, initial state unchanged) — the degenerate limit is silently
accepted rather than failing fast with a configuration error. -/
theorem retryUntil_nonpositive_limit {α ε σ : Type} (truthy : α → Bool)
    (errTruthy : ε → Bool) (errStr : ε → String)
    (action : Nat → σ → Attempt α ε × σ) (descr : String)
    (attemptLimit : Int) (timeout : Nat) (s : σ) (hlim : attemptLimit < 1) :
    retryUntil truthy errTruthy errStr action descr attemptLimit timeout s
      = ⟨RetryOutcome.undefinedResult, s, []⟩ := by
  have h0 : attemptLimit.toNat = 0 := by omega
  simp only [retryUntil, h0, retryUntilAux]

/-- Witness for C4's amended claim at `attemptLimit = -3`. -/
theorem retryUntil_nonpositive_limit_witness :
    retryUntil (fun b : Bool => b) (fun _ : String => true) (fun e => e)
      (fun _ _ => (Attempt.resolve true, ())) "cb" (-3) 7 ()
      = ⟨RetryOutcome.undefinedResult, (), []⟩ :=
  retryUntil_nonpositive_limit (fun b : Bool => b) (fun _ : String => true)
    (fun e => e) (fun _ _ => (Attempt.resolve true, ())) "cb" (-3) 7 () (by decide)

/-- A run with at least one remaining iteration begins by invoking the
callback for attempt `i`. -/
theorem retryUntilAux_events_head {α ε σ : Type} (truthy : α → Bool)
    (errTruthy : ε → Bool) (errStr : ε → String)
    (action : Nat → σ → Attempt α ε × σ) (descr : String) (timeout : Nat)
    (rem i : Nat) (s : σ) (hrem : rem ≠ 0) :
    ∃ rest, (retryUntilAux truthy errTruthy errStr action descr timeout rem i s).events
      = REvent.call i :: rest := by
  obtain ⟨r, rfl⟩ : ∃ r, rem = r + 1 := ⟨rem - 1, by omega⟩
  rcases hstep : action i s with ⟨a, s2⟩
  by_cases hfa : attemptFalsy truthy a
  · by_cases hr : r = 0
    · subst hr
      rw [retryUntilAux_last_falsy truthy errTruthy errStr action descr timeout i s s2 a
        hstep hfa]
      exact ⟨_, rfl⟩
    · rw [retryUntilAux_step_falsy truthy errTruthy errStr action descr timeout r i s s2 a
        hr hstep hfa]
      exact ⟨_, rfl⟩
  · cases a with
    | resolve v =>
      have hv : truthy v = true := by
        cases htv : truthy v
        · exact absurd htv hfa
        · rfl
      rw [retryUntilAux_resolve_truthy truthy errTruthy errStr action descr timeout r i s s2 v
        hstep hv]
      exact ⟨[], rfl⟩
    | reject e => exact absurd trivial hfa

/-- A run with at least one remaining iteration makes at least one
invocation. -/
theorem retryUntilAux_invocations_pos {α ε σ : Type} (truthy : α → Bool)
    (errTruthy : ε → Bool) (errStr : ε → String)
    (action : Nat → σ → Attempt α ε × σ) (descr : String) (timeout : Nat)
    (rem i : Nat) (s : σ) (hrem : rem ≠ 0) :
    1 ≤ (retryUntilAux truthy errTruthy errStr action descr timeout rem i s).invocations := by
  obtain ⟨rest, h⟩ := retryUntilAux_events_head truthy errTruthy errStr action descr timeout
    rem i s hrem
  simp [RetryTrace.invocations, h, REvent.isCall]

/-- If attempts `i, …, i + d - 1` are all unsuccessful and at least `d + 1`
iterations remain, the loop proceeds past them: at least `d + 1` invocations
happen (the rejections are contained, never escape the loop). -/
theorem retryUntilAux_continues {α ε σ : Type} (truthy : α → Bool)
    (errTruthy : ε → Bool) (errStr : ε → String)
    (action : Nat → σ → Attempt α ε × σ) (descr : String) (timeout : Nat) :
    ∀ (d rem i : Nat) (s : σ), d < rem →
      (∀ j s₁, i ≤ j → j < i + d → attemptFalsy truthy (action j s₁).1) →
      d + 1 ≤ (retryUntilAux truthy errTruthy errStr action descr timeout rem i s).invocations := by
  intro d
  induction d with
  | zero =>
    intro rem i s hd h
    exact retryUntilAux_invocations_pos truthy errTruthy errStr action descr timeout
      rem i s (by omega)
  | succ n ih =>
    intro rem i s hd h
    obtain ⟨r, rfl⟩ : ∃ r, rem = r + 1 := ⟨rem - 1, by omega⟩
    rcases hstep : action i s with ⟨a, s2⟩
    have hfa : attemptFalsy truthy a := by
      have hh := h i s (Nat.le_refl i) (by omega)
      rw [hstep] at hh
      exact hh
    rw [retryUntilAux_step_falsy truthy errTruthy errStr action descr timeout r i s s2 a
      (by omega) hstep hfa]
    have hrec := ih r (i + 1) s2 (by omega)
      (fun j s₁ hj1 hj2 => h j s₁ (by omega) (by omega))
    simp only [RetryTrace.invocations] at hrec ⊢
    by_cases ht : timeout = 0
    · subst ht
      simp only [ne_eq, not_true_eq_false, if_neg, ite_false, List.nil_append]
      simp [List.filter_cons, REvent.isCall]
      omega
    · simp [List.filter_cons, List.filter_append, REvent.isCall, ht]
      omega

/-- Every message carried by an exhausted outcome was built by the
exhaustion-message constructor. -/
theorem retryUntilAux_exhausted_shape {α ε σ : Type} (truthy : α → Bool)
    (errTruthy : ε → Bool) (errStr : ε → String)
    (action : Nat → σ → Attempt α ε × σ) (descr : String) (timeout : Nat) :
    ∀ (rem i : Nat) (s : σ) (msg : String),
      (retryUntilAux truthy errTruthy errStr action descr timeout rem i s).outcome
        = RetryOutcome.exhausted msg →
      ∃ cbErr : Option ε, msg = exhaustMsg errTruthy errStr cbErr descr := by
  intro rem
  induction rem with
  | zero =>
    intro i s msg h
    simp [retryUntilAux] at h
  | succ r ih =>
    intro i s msg h
    rcases hstep : action i s with ⟨a, s2⟩
    by_cases hfa : attemptFalsy truthy a
    · by_cases hr : r = 0
      · subst hr
        rw [retryUntilAux_last_falsy truthy errTruthy errStr action descr timeout i s s2 a
          hstep hfa] at h
        simp only [RetryOutcome.exhausted.injEq] at h
        exact ⟨attemptError a, h.symm⟩
      · rw [retryUntilAux_step_falsy truthy errTruthy errStr action descr timeout r i s s2 a
          hr hstep hfa] at h
        exact ih (i + 1) s2 msg h
    · cases a with
      | resolve v =>
        have hv : truthy v = true := by
          cases htv : truthy v
          · exact absurd htv hfa
          · rfl
        rw [retryUntilAux_resolve_truthy truthy errTruthy errStr action descr timeout r i s
          s2 v hstep hv] at h
        simp at h
      | reject e => exact absurd trivial hfa

/-- **C5.** A rejection on an attempt `k < attemptLimit` does not propagate:
whenever the first `k` attempts are all unsuccessful (rejected or resolved
falsy) and `k < attemptLimit`, the loop proceeds to invoke attempt `k + 1`
(at least `k + 1` invocations happen).  Moreover the only failure a caller
can ever observe is the terminal exhaustion error: every exhausted outcome's
message was built by the exhaustion-message constructor and starts with
`RetryUntil failed `. -/
theorem retryUntil_rejection_contained {α ε σ : Type} (truthy : α → Bool)
    (errTruthy : ε → Bool) (errStr : ε → String)
    (action : Nat → σ → Attempt α ε × σ) (descr : String)
    (attemptLimit : Int) (timeout : Nat) (s : σ) (k : Nat)
    (hk : (k : Int) < attemptLimit)
    (hfirst : ∀ j s₁, 1 ≤ j → j ≤ k → attemptFalsy truthy (action j s₁).1) :
    k + 1 ≤ (retryUntil truthy errTruthy errStr action descr attemptLimit timeout s).invocations ∧
    ∀ msg, (retryUntil truthy errTruthy errStr action descr attemptLimit timeout s).outcome
        = RetryOutcome.exhausted msg →
      (∃ cbErr : Option ε, msg = exhaustMsg errTruthy errStr cbErr descr) ∧
      strStarts msg "RetryUntil failed " = true := by
  constructor
  · exact retryUntilAux_continues truthy errTruthy errStr action descr timeout
      k attemptLimit.toNat 1 s (by omega)
      (fun j s₁ hj1 hj2 => hfirst j s₁ hj1 (by omega))
  · intro msg h
    obtain ⟨cbErr, hm⟩ := retryUntilAux_exhausted_shape truthy errTruthy errStr action
      descr timeout attemptLimit.toNat 1 s msg h
    refine ⟨⟨cbErr, hm⟩, ?_⟩
    rw [hm]
    exact exhaustMsg_starts errTruthy errStr cbErr descr

/-- Witness for C5: the action rejects on attempt 1 with `attemptLimit = 2`;
the run reaches attempt 2 (2 invocations) and the message of the exhausted
outcome of an always-rejecting sibling run starts with `RetryUntil failed `. -/
theorem retryUntil_rejection_contained_witness :
    2 ≤ (retryUntil (fun b : Bool => b) (fun _ : String => true) (fun e => e)
        (fun _ _ => (Attempt.reject "boom", ())) "cb" 2 0 ()).invocations ∧
    strStarts "RetryUntil failed with error: boom\nCondition wasn't successful:\ncb"
      "RetryUntil failed " = true := by
  have h := retryUntil_rejection_contained (fun b : Bool => b) (fun _ : String => true)
    (fun e => e) (fun _ _ => (Attempt.reject "boom", ())) "cb" 2 0 () 1
    (by decide) (fun j s₁ h1 h2 => trivial)
  refine ⟨h.1, ?_⟩
  exact (h.2 "RetryUntil failed with error: boom\nCondition wasn't successful:\ncb" rfl).2

/-- **C8.** When `timeout` is nonzero, `wait(timeout)` runs after every
unsuccessful attempt including the final one: a fully exhausted run of
`attemptLimit` attempts performs exactly `attemptLimit` sleeps and its last
event is the trailing sleep, so the exhaustion error is only thrown after a
final delay of `timeout` ms; after a successful attempt no wait runs — the
successful call is the run's last event. -/
theorem retryUntil_wait_schedule {α ε σ : Type} (truthy : α → Bool)
    (errTruthy : ε → Bool) (errStr : ε → String)
    (action : Nat → σ → Attempt α ε × σ) (descr : String)
    (attemptLimit : Int) (timeout : Nat) (s : σ)
    (hlim : 1 ≤ attemptLimit) (ht : timeout ≠ 0) :
    ((∀ j s₁, attemptFalsy truthy (action j s₁).1) →
      (retryUntil truthy errTruthy errStr action descr attemptLimit timeout s).waits
          = attemptLimit.toNat ∧
      (retryUntil truthy errTruthy errStr action descr attemptLimit timeout s).events.getLast?
          = some (REvent.sleep timeout)) ∧
    (∀ (k : Nat) (v : α), 1 ≤ k → (k : Int) ≤ attemptLimit → truthy v = true →
      (∀ j s₁, 1 ≤ j → j < k → attemptFalsy truthy (action j s₁).1) →
      (∀ s₁, (action k s₁).1 = Attempt.resolve v) →
      (retryUntil truthy errTruthy errStr action descr attemptLimit timeout s).events.getLast?
          = some (REvent.call k)) := by
  constructor
  · intro hfal
    obtain ⟨r, hr⟩ : ∃ r, attemptLimit.toNat = r + 1 := ⟨attemptLimit.toNat - 1, by omega⟩
    simp only [retryUntil, hr]
    rw [retryUntilAux_exhaust_run truthy errTruthy errStr action descr timeout hfal r 1 s]
    constructor
    · simp only [RetryTrace.waits]
      rw [exhaustEvents_sleeps]
      simp [ht]
    · simp [exhaustEvents_getLast, ht]
  · intro k v hk1 hk hv hearly hsucc
    have hk' : 1 + (k - 1) = k := by omega
    have h := retryUntilAux_success_run truthy errTruthy errStr action descr timeout v hv
      (k - 1) attemptLimit.toNat 1 s (by omega)
      (fun j s₁ hj1 hj2 => hearly j s₁ hj1 (by omega))
      (fun s₁ => by rw [hk']; exact hsucc s₁)
    rw [hk'] at h
    simpa [retryUntil] using h.2.2

/-- Witness for C8: with `timeout = 100`, an always-rejecting action under
`attemptLimit = 2` performs 2 sleeps and ends with a sleep, while an action
that succeeds on attempt 1 ends with that call. -/
theorem retryUntil_wait_schedule_witness :
    ((retryUntil (fun b : Bool => b) (fun _ : String => true) (fun e => e)
        (fun _ _ => (Attempt.reject "boom", ())) "cb" 2 100 ()).waits = (2 : Int).toNat ∧
      (retryUntil (fun b : Bool => b) (fun _ : String => true) (fun e => e)
        (fun _ _ => (Attempt.reject "boom", ())) "cb" 2 100 ()).events.getLast?
        = some (REvent.sleep 100)) ∧
    (retryUntil (fun b : Bool => b) (fun _ : String => true) (fun e => e)
        (fun _ _ => (Attempt.resolve true, ())) "cb" 2 100 ()).events.getLast?
      = some (REvent.call 1) := by
  constructor
  · exact (retryUntil_wait_schedule (fun b : Bool => b) (fun _ : String => true)
      (fun e => e) (fun _ _ => (Attempt.reject "boom", ())) "cb" 2 100 ()
      (by decide) (by decide)).1 (fun _ _ => trivial)
  · exact (retryUntil_wait_schedule (fun b : Bool => b) (fun _ : String => true)
      (fun e => e) (fun _ _ => (Attempt.resolve true, ())) "cb" 2 100 ()
      (by decide) (by decide)).2 1 true (by decide) (by decide) rfl
      (fun j s₁ h1 h2 => absurd h2 (by omega)) (fun s₁ => rfl)

/-!
The mailbox poller of `MailtrapApiClient.getLatestMessageIdBySubject`: after a
fixed `wait(5_000)` grace period it drives `retryUntil` (attempt budget 5,
spacing 5000 ms) over a probe that lists the inbox, filters by recipient
containment and exact subject, throws a not-found `Error` when nothing
matches and otherwise assigns the first match's id to the captured
`messageId` variable and resolves `true`.  The mailbox listing returned by
`getAllMessages` on polling attempt `i` is modelled as `listings i`; the
probe's closure state is `Option String` (the `messageId` variable, initially
`undefined`). -/

/-- `IMailtrapMessage`: one message summary returned by the mailbox listing
endpoint. -/
structure IMailtrapMessage where
  id : String
  to_email : String
  subject : String
  sent_at : String
deriving DecidableEq, Repr

/-- The probe's filter:
`message.to_email.includes(email) && message.subject === subject`. -/
def filterMessages (email subject : String) (msgs : List IMailtrapMessage) :
    List IMailtrapMessage :=
  msgs.filter (fun message => strContains message.to_email email
    && message.subject == subject)

/-- The not-found error message thrown by the probe:
`` `Email sent to "${email}" with subject "${subject}" was not found in Mailtrap` ``. -/
def mailNotFoundMsg (email subject : String) : String :=
  "Email sent to \"" ++ email ++ "\" with subject \"" ++ subject ++
    "\" was not found in Mailtrap"

/-- One polling attempt of the lookup: list all inbox messages (the listing
the API returns on attempt `i`), filter them, throw the not-found error when
the filtered list is empty, otherwise assign `messageId` (the closure state)
to the first match's id and resolve `true`. -/
def mailProbe (listings : Nat → List IMailtrapMessage) (email subject : String)
    (i : Nat) (messageId : Option String) : Attempt Bool String × Option String :=
  match filterMessages email subject (listings i) with
  | [] => (Attempt.reject (mailNotFoundMsg email subject), messageId)
  | m :: _ => (Attempt.resolve true, some m.id)

/-- JS string interpolation `` `${err}` `` of a thrown `Error` object. -/
def jsErrorString (message : String) : String := "Error: " ++ message

/-- `cbToPerform.toString()` for the mailbox probe: the source text of the
arrow function handed to `retryUntil` (opaque here; only its occurrence in
the exhaustion message matters). -/
def mailProbeSource : String := "async () => ..."

/-- Result of `getLatestMessageIdBySubject`: the initial `wait(5_000)` grace
period and the `retryUntil` trace (`timesToRepeat: 5`, `timeout: 5_000`,
truthiness of the probe's `true` result, `Error` objects always truthy).
When the trace resolves, the returned value is its final closure state (the
`messageId` assigned by the successful attempt). -/
structure MailLookup where
  graceWaitMs : Nat
  trace : RetryTrace Bool (Option String)
deriving DecidableEq, Repr

/-- `getLatestMessageIdBySubject(email, subject)`. -/
def getLatestMessageIdBySubject (listings : Nat → List IMailtrapMessage)
    (email subject : String) : MailLookup :=
  ⟨5000, retryUntil (fun b : Bool => b) (fun _ : String => true) jsErrorString
    (mailProbe listings email subject) mailProbeSource 5 5000 none⟩

/-- **C6.** The probe keeps exactly the messages whose `to_email` contains
the recipient and whose `subject` equals the subject exactly; an empty
filtered set makes it fail with the descriptive not-found error (leaving
`messageId` untouched); otherwise it records the id of the first match in
the API's returned list order — no sorting — and signals success. -/
theorem mailProbe_filter_spec (listings : Nat → List IMailtrapMessage)
    (email subject : String) (i : Nat) (s : Option String) :
    (∀ m, m ∈ filterMessages email subject (listings i) ↔
      m ∈ listings i ∧ strContains m.to_email email = true ∧ m.subject = subject) ∧
    (filterMessages email subject (listings i) = [] →
      mailProbe listings email subject i s
        = (Attempt.reject (mailNotFoundMsg email subject), s)) ∧
    (∀ m rest, filterMessages email subject (listings i) = m :: rest →
      mailProbe listings email subject i s = (Attempt.resolve true, some m.id)) := by
  refine ⟨?_, ?_, ?_⟩
  · intro m
    simp [filterMessages, List.mem_filter, and_assoc]
  · intro h
    simp [mailProbe, h]
  · intro m rest h
    simp [mailProbe, h]

/-- Witness for C6: a one-message mailbox whose message matches; the probe
records its id and resolves `true`. -/
theorem mailProbe_filter_spec_witness :
    mailProbe (fun _ => [⟨"m1", "to: a@b.c", "Hello", "t0"⟩]) "a@b.c" "Hello" 1 none
      = (Attempt.resolve true, some "m1") := by
  have h := mailProbe_filter_spec (fun _ => [⟨"m1", "to: a@b.c", "Hello", "t0"⟩])
    "a@b.c" "Hello" 1 none
  exact h.2.2 ⟨"m1", "to: a@b.c", "Hello", "t0"⟩ [] (by decide)

/-- The message built from the stringified not-found `Error` contains the
raw not-found text. -/
theorem exhaustMsg_jsError_contains (M descr : String) :
    strContains (exhaustMsg (fun _ : String => true) jsErrorString (some M) descr) M
      = true := by
  apply strContains_of_parts _ _
    ("RetryUntil failed ".data ++ ("with error: ".data ++ "Error: ".data))
    ("\n".data ++ ("Condition wasn't successful:\n".data ++ descr.data))
  simp [exhaustMsg, jsErrorString, List.append_assoc]

/-- **C7.** When no matching message ever appears (every polling attempt's
filtered list is empty), the lookup waits the fixed 5000 ms grace period,
performs exactly 5 polling attempts each followed by a 5000 ms sleep, and
fails with the exhaustion error built from the not-found `Error` of the last
attempt; the message contains the not-found text. -/
theorem getLatestMessageIdBySubject_exhausts (listings : Nat → List IMailtrapMessage)
    (email subject : String)
    (h : ∀ i, filterMessages email subject (listings i) = []) :
    (getLatestMessageIdBySubject listings email subject).graceWaitMs = 5000 ∧
    (getLatestMessageIdBySubject listings email subject).trace.invocations = 5 ∧
    (getLatestMessageIdBySubject listings email subject).trace.waits = 5 ∧
    (getLatestMessageIdBySubject listings email subject).trace.outcome
      = RetryOutcome.exhausted (exhaustMsg (fun _ : String => true) jsErrorString
          (some (mailNotFoundMsg email subject)) mailProbeSource) ∧
    strContains (exhaustMsg (fun _ : String => true) jsErrorString
        (some (mailNotFoundMsg email subject)) mailProbeSource)
      (mailNotFoundMsg email subject) = true := by
  have hfal : ∀ j s₁,
      attemptFalsy (fun b : Bool => b) ((mailProbe listings email subject j s₁).1) := by
    intro j s₁
    simp [mailProbe, h j, attemptFalsy]
  have htr : (getLatestMessageIdBySubject listings email subject).trace
      = retryUntilAux (fun b : Bool => b) (fun _ : String => true) jsErrorString
          (mailProbe listings email subject) mailProbeSource 5000 (4 + 1) 1 none := rfl
  have hrun := retryUntilAux_exhaust_run (fun b : Bool => b) (fun _ : String => true)
    jsErrorString (mailProbe listings email subject) mailProbeSource 5000 hfal 4 1 none
  have herr : (mailProbe listings email subject (1 + 4)
      (iterState (mailProbe listings email subject) 4 1 none)).1
      = Attempt.reject (mailNotFoundMsg email subject) := by
    simp [mailProbe, h (1 + 4)]
  refine ⟨rfl, ?_, ?_, ?_, ?_⟩
  · rw [htr, hrun]
    simp only [RetryTrace.invocations]
    exact exhaustEvents_calls 5000 4 1
  · rw [htr, hrun]
    simp only [RetryTrace.waits]
    rw [exhaustEvents_sleeps]
    simp
  · rw [htr, hrun]
    simp [herr, attemptError]
  · exact exhaustMsg_jsError_contains (mailNotFoundMsg email subject) mailProbeSource

/-- Witness for C7: an always-empty mailbox at recipient `a@b.c`, subject
`Hi`. -/
theorem getLatestMessageIdBySubject_exhausts_witness :
    (getLatestMessageIdBySubject (fun _ => []) "a@b.c" "Hi").graceWaitMs = 5000 ∧
    (getLatestMessageIdBySubject (fun _ => []) "a@b.c" "Hi").trace.invocations = 5 ∧
    (getLatestMessageIdBySubject (fun _ => []) "a@b.c" "Hi").trace.waits = 5 ∧
    (getLatestMessageIdBySubject (fun _ => []) "a@b.c" "Hi").trace.outcome
      = RetryOutcome.exhausted (exhaustMsg (fun _ : String => true) jsErrorString
          (some (mailNotFoundMsg "a@b.c" "Hi")) mailProbeSource) ∧
    strContains (exhaustMsg (fun _ : String => true) jsErrorString
        (some (mailNotFoundMsg "a@b.c" "Hi")) mailProbeSource)
      (mailNotFoundMsg "a@b.c" "Hi") = true :=
  getLatestMessageIdBySubject_exhausts (fun _ => []) "a@b.c" "Hi" (fun _ => rfl)

/-- Every resolved run ends at its successful attempt: there are an attempt
number `k ≥ i` and an incoming closure state `s₁` with the callback resolving
the truthy value there, the run's final state being that attempt's post-state
and the run's last event being that call. -/
theorem retryUntilAux_resolved_shape {α ε σ : Type} (truthy : α → Bool)
    (errTruthy : ε → Bool) (errStr : ε → String)
    (action : Nat → σ → Attempt α ε × σ) (descr : String) (timeout : Nat) :
    ∀ (rem i : Nat) (s : σ) (v : α),
      (retryUntilAux truthy errTruthy errStr action descr timeout rem i s).outcome
        = RetryOutcome.resolved v →
      ∃ (k : Nat) (s₁ : σ), i ≤ k ∧ truthy v = true ∧
        (action k s₁).1 = Attempt.resolve v ∧
        (retryUntilAux truthy errTruthy errStr action descr timeout rem i s).state
          = (action k s₁).2 ∧
        (retryUntilAux truthy errTruthy errStr action descr timeout rem i s).events.getLast?
          = some (REvent.call k) := by
  intro rem
  induction rem with
  | zero =>
    intro i s v h
    simp [retryUntilAux] at h
  | succ r ih =>
    intro i s v h
    rcases hstep : action i s with ⟨a, s2⟩
    by_cases hfa : attemptFalsy truthy a
    · by_cases hr : r = 0
      · subst hr
        rw [retryUntilAux_last_falsy truthy errTruthy errStr action descr timeout i s s2 a
          hstep hfa] at h
        simp at h
      · rw [retryUntilAux_step_falsy truthy errTruthy errStr action descr timeout r i s s2 a
          hr hstep hfa] at h ⊢
        obtain ⟨k, s₁, hik, hv, hact, hstate, hlast⟩ := ih (i + 1) s2 v h
        refine ⟨k, s₁, by omega, hv, hact, hstate, ?_⟩
        simp [List.getLast?_cons, hlast]
    · cases a with
      | resolve w =>
        have hw : truthy w = true := by
          cases htw : truthy w
          · exact absurd htw hfa
          · rfl
        rw [retryUntilAux_resolve_truthy truthy errTruthy errStr action descr timeout r i s
          s2 w hstep hw] at h ⊢
        simp only [RetryOutcome.resolved.injEq] at h
        subst h
        refine ⟨i, s, Nat.le_refl i, hw, ?_, ?_, rfl⟩
        · rw [hstep]
        · rw [hstep]
      | reject e => exact absurd trivial hfa

/-- **C9.** Whenever the lookup resolves, the `messageId` it returns is the
id of the first element — in API list order — of the filtered result of the
final (successful) `getAllMessages` query, namely the query of the attempt
`k` that is the run's last event, and that message satisfies the match
criteria: its `to_email` contains the recipient and its `subject` equals the
subject exactly. -/
theorem getLatestMessageIdBySubject_resolved_id (listings : Nat → List IMailtrapMessage)
    (email subject : String) (v : Bool)
    (hres : (getLatestMessageIdBySubject listings email subject).trace.outcome
      = RetryOutcome.resolved v) :
    ∃ (k : Nat) (m : IMailtrapMessage) (rest : List IMailtrapMessage),
      (getLatestMessageIdBySubject listings email subject).trace.events.getLast?
        = some (REvent.call k) ∧
      filterMessages email subject (listings k) = m :: rest ∧
      (getLatestMessageIdBySubject listings email subject).trace.state = some m.id ∧
      strContains m.to_email email = true ∧ m.subject = subject := by
  obtain ⟨k, s₁, hik, hv, hact, hstate, hlast⟩ :=
    retryUntilAux_resolved_shape (fun b : Bool => b) (fun _ : String => true)
      jsErrorString (mailProbe listings email subject) mailProbeSource 5000
      ((5 : Int).toNat) 1 none v hres
  rcases hfil : filterMessages email subject (listings k) with _ | ⟨m, rest⟩
  · rw [mailProbe, hfil] at hact
    simp at hact
  · rw [mailProbe, hfil] at hact hstate
    refine ⟨k, m, rest, hlast, hfil, hstate, ?_, ?_⟩
    · have hm : m ∈ filterMessages email subject (listings k) := by
        rw [hfil]
        exact List.mem_cons_self m rest
      have := List.of_mem_filter hm
      simp at this
      exact this.1
    · have hm : m ∈ filterMessages email subject (listings k) := by
        rw [hfil]
        exact List.mem_cons_self m rest
      have := List.of_mem_filter hm
      simp at this
      exact this.2

/-- Witness for C9: a one-message mailbox whose message matches; the lookup
resolves and returns that message's id, found by the first attempt. -/
theorem getLatestMessageIdBySubject_resolved_id_witness :
    ∃ (k : Nat) (m : IMailtrapMessage) (rest : List IMailtrapMessage),
      (getLatestMessageIdBySubject (fun _ => [⟨"id1", "x a@b.c y", "Hi", "t0"⟩])
          "a@b.c" "Hi").trace.events.getLast? = some (REvent.call k) ∧
      filterMessages "a@b.c" "Hi" ((fun _ => [⟨"id1", "x a@b.c y", "Hi", "t0"⟩]) k)
        = m :: rest ∧
      (getLatestMessageIdBySubject (fun _ => [⟨"id1", "x a@b.c y", "Hi", "t0"⟩])
          "a@b.c" "Hi").trace.state = some m.id ∧
      strContains m.to_email "a@b.c" = true ∧ m.subject = "Hi" :=
  getLatestMessageIdBySubject_resolved_id
    (fun _ => [⟨"id1", "x a@b.c y", "Hi", "t0"⟩]) "a@b.c" "Hi" true (by decide)

/-!
Body retrieval (`getMessageTextById` / `getMessageHTMLById`): each builds a
GET request for a deterministic URL and carries no payload.  The external
mail-testing service owning the mailbox is out of scope of the repository;
per the specification its read endpoints are side-effect-free, so it is
modelled as a state whose GET handler returns the body stored at the URL and
leaves the state unchanged. -/

/-- An outbound HTTP request of the client (method and URL; the body-retrieval
calls carry no payload). -/
structure HttpRequest where
  method : String
  url : String
deriving DecidableEq, Repr

/-- `getMessageTextById(messageId)`:
`GET /inboxes/{mailtrapInboxId}/messages/{messageId}/body.txt`. -/
def getMessageTextByIdRequest (mailtrapInboxId messageId : String) : HttpRequest :=
  ⟨"GET", "/inboxes/" ++ mailtrapInboxId ++ "/messages/" ++ messageId ++ "/body.txt"⟩

/-- `getMessageHTMLById(messageId)`:
`GET /inboxes/{mailtrapInboxId}/messages/{messageId}/body.html`. -/
def getMessageHTMLByIdRequest (mailtrapInboxId messageId : String) : HttpRequest :=
  ⟨"GET", "/inboxes/" ++ mailtrapInboxId ++ "/messages/" ++ messageId ++ "/body.html"⟩

/-- Modelled from the spec: the external mail-testing service's state.  The
service itself is not part of the repository; the specification describes its
body-retrieval endpoint as read-only ("Side effects: none beyond outbound
HTTP calls…; idempotent with respect to mailbox state (read-only)"), so a GET
returns the body stored for the requested URL and leaves the state
unchanged. -/
structure MailService where
  bodyAt : String → String

/-- The service's handling of a GET request: respond with the stored body,
state unchanged. -/
def MailService.handleGet (st : MailService) (req : HttpRequest) :
    String × MailService :=
  (st.bodyAt req.url, st)

/-- **C10.** For every message id, calling the body-retrieval operation twice
with the same id against an unchanged mailbox state returns byte-identical
content both times and modifies no mailbox state, for both the text and the
HTML variant; both calls are GETs of the same deterministically built URL. -/
theorem getMessageBody_idempotent (st : MailService)
    (mailtrapInboxId messageId : String) :
    ((getMessageTextByIdRequest mailtrapInboxId messageId).method = "GET" ∧
      (st.handleGet (getMessageTextByIdRequest mailtrapInboxId messageId)).2 = st ∧
      ((st.handleGet (getMessageTextByIdRequest mailtrapInboxId messageId)).2.handleGet
          (getMessageTextByIdRequest mailtrapInboxId messageId)).1
        = (st.handleGet (getMessageTextByIdRequest mailtrapInboxId messageId)).1) ∧
    ((getMessageHTMLByIdRequest mailtrapInboxId messageId).method = "GET" ∧
      (st.handleGet (getMessageHTMLByIdRequest mailtrapInboxId messageId)).2 = st ∧
      ((st.handleGet (getMessageHTMLByIdRequest mailtrapInboxId messageId)).2.handleGet
          (getMessageHTMLByIdRequest mailtrapInboxId messageId)).1
        = (st.handleGet (getMessageHTMLByIdRequest mailtrapInboxId messageId)).1) :=
  ⟨⟨rfl, rfl, rfl⟩, ⟨rfl, rfl, rfl⟩⟩
